import Mathlib

/-!
Verification development for the "Extract Anything" document-intake review
console (`app/streamlit_main.py`).  The Python helpers are shallowly embedded
as executable Lean definitions: JSON-like values become the inductive `JValue`,
Python dictionaries become association lists (Python dicts preserve insertion
order and have unique keys), code that can raise becomes `Option`/`Except`
valued, and machine-level details that the helpers do not touch (floats,
unicode case folding beyond ASCII) are outside the modelled fragment.
-/

/-- JSON-like Python value: `None`, `bool`, `int`, `str`, `list`, `dict`.
Dictionaries are association lists in insertion order with unique keys
(the invariant Python dicts maintain). -/
inductive JValue where
  | null : JValue
  | bool : Bool → JValue
  | num : Int → JValue
  | str : String → JValue
  | arr : List JValue → JValue
  | obj : List (String × JValue) → JValue
deriving Repr

/-- Is the value a Python `dict` (JSON object)? -/
def JValue.isObj : JValue → Bool
  | JValue.obj _ => true
  | _ => false

/-- Is the value a Python `list` (JSON array)? -/
def JValue.isArr : JValue → Bool
  | JValue.arr _ => true
  | _ => false

/-- `d.get(k)`: first binding of `k` in an association list, if any. -/
def lookupJ (k : String) : List (String × JValue) → Option JValue
  | [] => Option.none
  | (k', v) :: rest => if k' = k then some v else lookupJ k rest

/-- `d[k] = v` on a Python dict: update the value in place if the key
exists (keeping its original position), otherwise append the binding. -/
def objInsert (k : String) (v : JValue) : List (String × JValue) → List (String × JValue)
  | [] => [(k, v)]
  | (k', v') :: rest => if k' = k then (k', v) :: rest else (k', v') :: objInsert k v rest

/-- The single-quote character, `chr(39)`. -/
def sqc : Char := Char.ofNat 39

/-- The double-quote character, `chr(34)`. -/
def dqc : Char := Char.ofNat 34

mutual
/-- Python `str()` of a `JValue` (scalar forms: `None`, `True`, `False`,
decimal integers, the string itself); containers print their elements
with `repr`, where `repr` of a string wraps it in single quotes
(escaping inside `repr` is outside the modelled fragment). -/
def pyStr : JValue → String
  | JValue.null => "None"
  | JValue.bool true => "True"
  | JValue.bool false => "False"
  | JValue.num n => toString n
  | JValue.str s => s
  | JValue.arr l => "[" ++ String.intercalate ", " (pyReprList l) ++ "]"
  | JValue.obj l => "\x7b" ++ String.intercalate ", " (pyReprPairs l) ++ "\x7d"

def pyRepr : JValue → String
  | JValue.str s => String.singleton sqc ++ s ++ String.singleton sqc
  | JValue.null => "None"
  | JValue.bool true => "True"
  | JValue.bool false => "False"
  | JValue.num n => toString n
  | JValue.arr l => "[" ++ String.intercalate ", " (pyReprList l) ++ "]"
  | JValue.obj l => "\x7b" ++ String.intercalate ", " (pyReprPairs l) ++ "\x7d"

def pyReprList : List JValue → List String
  | [] => []
  | v :: rest => pyRepr v :: pyReprList rest

def pyReprPairs : List (String × JValue) → List String
  | [] => []
  | (k, v) :: rest => (pyRepr (JValue.str k) ++ ": " ++ pyRepr v) :: pyReprPairs rest
end

/-- JSON whitespace as accepted by Python's `json` module. -/
def isJsonWs (c : Char) : Bool :=
  c = ' ' || c = '\t' || c = '\n' || c = '\r'

/-- Drop leading JSON whitespace. -/
def skipWs (cs : List Char) : List Char := cs.dropWhile isJsonWs

/-- Digit run at the front of the input: the digits and the rest. -/
def takeDigits : List Char → List Char × List Char
  | [] => ([], [])
  | c :: rest =>
    if c.isDigit then
      let p := takeDigits rest
      (c :: p.1, p.2)
    else ([], c :: rest)

/-- A JSON integer literal body is `0` or starts with a nonzero digit. -/
def validIntDigits (ds : List Char) : Bool :=
  match ds with
  | [] => false
  | ['0'] => true
  | d :: _ => d ≠ '0'

/-- Digits to the `Nat` they denote. -/
def digitsToNat (ds : List Char) : Nat :=
  ds.foldl (fun acc c => acc * 10 + (c.toNat - '0'.toNat)) 0

/-- Models string-body scanning in Python's `json.loads`: consume characters
up to the closing double quote, decoding the escapes `\"`, `\\`, `\/`,
`\b`, `\f`, `\n`, `\r`, `\t` (the `\uXXXX` form is outside the modelled
fragment and fails the parse). -/
def parseStringBody : Nat → List Char → Option (List Char × List Char)
  | 0, _ => Option.none
  | _, [] => Option.none
  | fuel + 1, c :: rest =>
    if c = dqc then some ([], rest)
    else if c = '\\' then
      match rest with
      | [] => Option.none
      | e :: rest' =>
        let dec : Option Char :=
          if e = dqc then some dqc
          else if e = '\\' then some '\\'
          else if e = '/' then some '/'
          else if e = 'b' then some (Char.ofNat 8)
          else if e = 'f' then some (Char.ofNat 12)
          else if e = 'n' then some '\n'
          else if e = 'r' then some '\r'
          else if e = 't' then some '\t'
          else Option.none
        match dec with
        | some d =>
          match parseStringBody fuel rest' with
          | some (body, rem) => some (d :: body, rem)
          | Option.none => Option.none
        | Option.none => Option.none
    else
      match parseStringBody fuel rest with
      | some (body, rem) => some (c :: body, rem)
      | Option.none => Option.none

mutual
/-- Models value parsing in Python's `json.loads` on the fragment the app
exchanges: `null`, `true`, `false`, integers, strings, arrays, objects
(floats, `NaN`/`Infinity` and `\uXXXX` escapes are outside the fragment
and fail the parse, making `ensure_dict` fall back to its raw wrapper). -/
def parseVal : Nat → List Char → Option (JValue × List Char)
  | 0, _ => Option.none
  | fuel + 1, cs =>
    match skipWs cs with
    | 'n' :: 'u' :: 'l' :: 'l' :: rest => some (JValue.null, rest)
    | 't' :: 'r' :: 'u' :: 'e' :: rest => some (JValue.bool true, rest)
    | 'f' :: 'a' :: 'l' :: 's' :: 'e' :: rest => some (JValue.bool false, rest)
    | '-' :: rest =>
      let p := takeDigits rest
      if validIntDigits p.1 then some (JValue.num (-(digitsToNat p.1 : Int)), p.2)
      else Option.none
    | '[' :: rest => parseArrItems fuel (skipWs rest) true []
    | c :: rest =>
      if c = dqc then
        match parseStringBody (fuel + 1) rest with
        | some (body, rem) => some (JValue.str (String.mk body), rem)
        | Option.none => Option.none
      else if c = '\x7b' then parseObjItems fuel (skipWs rest) true []
      else if c.isDigit then
        let p := takeDigits (c :: rest)
        if validIntDigits p.1 then some (JValue.num (digitsToNat p.1 : Int), p.2)
        else Option.none
      else Option.none
    | [] => Option.none

def parseArrItems : Nat → List Char → Bool → List JValue → Option (JValue × List Char)
  | 0, _, _, _ => Option.none
  | _ + 1, [], _, _ => Option.none
  | fuel + 1, c :: rest, first, acc =>
    if c = ']' ∧ first then some (JValue.arr acc.reverse, rest)
    else
      match parseVal fuel (c :: rest) with
      | Option.none => Option.none
      | some (v, rem) =>
        match skipWs rem with
        | ',' :: rem' => parseArrItems fuel (skipWs rem') false (v :: acc)
        | ']' :: rem' => some (JValue.arr (v :: acc).reverse, rem')
        | _ => Option.none

def parseObjItems : Nat → List Char → Bool → List (String × JValue) → Option (JValue × List Char)
  | 0, _, _, _ => Option.none
  | _ + 1, [], _, _ => Option.none
  | fuel + 1, c :: rest, first, acc =>
    if c = '\x7d' ∧ first then some (JValue.obj acc, rest)
    else if c = dqc then
      match parseStringBody (fuel + 1) rest with
      | Option.none => Option.none
      | some (key, rem) =>
        match skipWs rem with
        | ':' :: rem' =>
          match parseVal fuel (skipWs rem') with
          | Option.none => Option.none
          | some (v, rem'') =>
            let acc' := objInsert (String.mk key) v acc
            match skipWs rem'' with
            | ',' :: rem''' => parseObjItems fuel (skipWs rem''') false acc'
            | c' :: rem''' =>
              if c' = '\x7d' then some (JValue.obj acc', rem''')
              else Option.none
            | [] => Option.none
        | _ => Option.none
    else Option.none
end

/-- Models Python's `json.loads` (on the fragment described at `parseVal`):
parse one JSON value and require only whitespace to follow. -/
def jsonLoads (s : String) : Option JValue :=
  match parseVal (2 * s.length + 4) s.data with
  | some (v, rest) => if skipWs rest = [] then some v else Option.none
  | Option.none => Option.none

/-- `ensure_dict` (streamlit_main.py lines 30-40): `None` becomes the empty
dict; a dict is returned unchanged; a string is parsed with `json.loads`,
falling back to a `raw` wrapper when parsing raises; anything else is
wrapped under `value`.  Note the parsed result of a string is returned
as-is, whatever its type. -/
def ensure_dict (value : JValue) : JValue :=
  match value with
  | JValue.null => JValue.obj []
  | JValue.obj _ => value
  | JValue.str s =>
    match jsonLoads s with
    | some v => v
    | Option.none => JValue.obj [("raw", JValue.str s)]
  | _ => JValue.obj [("value", value)]

/-- The per-value normalisation step inside `extract_response_fields`
(lines 47-51): a list becomes the `", "`-join of its elements' `str()`
forms; any other value is kept unchanged. -/
def normVal : JValue → JValue
  | JValue.arr l => JValue.str (String.intercalate ", " (l.map pyStr))
  | v => v

/-- `extract_response_fields` (lines 43-52): run the input through
`ensure_dict`; take `obj.get("response", obj)` as the payload; iterate the
payload's items normalising list values.  `obj.get` and `payload.items()`
are attribute accesses that raise on non-dict values, so those paths are
`Option.none` in the embedding. -/
def extract_response_fields (extract_json : JValue) : Option (List (String × JValue)) :=
  match ensure_dict extract_json with
  | JValue.obj pairs =>
    match (lookupJ "response" pairs).getD (JValue.obj pairs) with
    | JValue.obj ppairs => some (ppairs.map (fun kv => (kv.1, normVal kv.2)))
    | _ => Option.none
  | _ => Option.none

/-- Python `s.replace(c, c+c)` for a single character `c`: every occurrence
of `c` in the string is doubled. -/
def doubleChar (c : Char) : List Char → List Char
  | [] => []
  | x :: rest => if x = c then c :: c :: doubleChar c rest else x :: doubleChar c rest

/-- `escape_json_for_sql` (lines 55-57): double every backslash, then double
every single quote, making the payload safe inside a SQL string literal. -/
def escape_json_for_sql (json_str : List Char) : List Char :=
  doubleChar sqc (doubleChar '\\' json_str)

/-- `esc` (lines 60-62): `None` becomes the empty string, any other value its
`str()` form, and every single quote is doubled. -/
def esc (value : JValue) : List Char :=
  let s : List Char :=
    match value with
    | JValue.null => []
    | v => (pyStr v).data
  doubleChar sqc s

/-- Modelled from the spec: the SQL reader's interpretation of an escaped
string literal, "interpreting doubled backslashes as a backslash and doubled
single quotes as a quote" while copying everything else.  This inverse is not
part of the application source; it is the spec's description of how the
backend parses the literal `escape_json_for_sql` builds. -/
def sqlUnescape : List Char → List Char
  | [] => []
  | [c] => [c]
  | c1 :: c2 :: rest =>
    if (c1 = '\\' ∧ c2 = '\\') ∨ (c1 = sqc ∧ c2 = sqc) then c1 :: sqlUnescape rest
    else c1 :: sqlUnescape (c2 :: rest)

/-- `get_presigned_url` (lines 65-72): the whole body runs inside
`try/except`, so the URL row is returned on success and any failure of the
remote query becomes `None`.  The argument is the outcome of the remote
`GET_PRESIGNED_URL` query. -/
def get_presigned_url (result : Except String String) : Option String :=
  match result with
  | Except.ok url => some url
  | Except.error _ => Option.none

/-- `fetch_stage_file` (lines 75-81): reads the staged file's bytes with no
exception handler anywhere in the body, so a failing read propagates to the
caller unchanged.  The argument is the outcome of the staged-file read. -/
def fetch_stage_file (result : Except String (List Nat)) : Except String (List Nat) :=
  match result with
  | Except.ok data => Except.ok data
  | Except.error e => Except.error e

/-- `_bump_cache` (lines 213-214): increment the session's `_cache_buster`. -/
def bump_cache (b : Nat) : Nat := b + 1

/-- The user interactions whose handlers can touch the revision counter:
the Prompts-tab refresh button (lines 356-357), the Prompts-tab save button
(lines 383-401), the Review-tab approve button (lines 513-534), and the
Upload-tab "Upload & Process" button (lines 411-440). -/
inductive SessionOp where
  | refreshClick : SessionOp
  | promptSaveClick : SessionOp
  | approveClick : SessionOp
  | uploadProcessClick : SessionOp
deriving Repr, DecidableEq

/-- Effect of each interaction on `_cache_buster`: the refresh, prompt-save
and approve handlers call `_bump_cache()`; the Upload & Process block
(lines 411-440) contains no `_bump_cache()` call, so the counter is left
unchanged there. -/
def applyOp : SessionOp → Nat → Nat
  | SessionOp.refreshClick, b => bump_cache b
  | SessionOp.promptSaveClick, b => bump_cache b
  | SessionOp.approveClick, b => bump_cache b
  | SessionOp.uploadProcessClick, b => b

/-- One rerun of the multi-page branch of `render_document_preview`
(lines 107-152): apply the ◀ button (clamped decrement), then the ▶ button
(clamped increment), then the slider value, which overrides the page when it
differs from the post-button value. -/
def page_step (total_pages current : Nat) (prev_clicked next_clicked : Bool)
    (slider_val : Nat) : Nat :=
  let c1 := if prev_clicked then max 1 (current - 1) else current
  let c2 := if next_clicked then min total_pages (c1 + 1) else c1
  if slider_val ≠ c2 then slider_val else c2

/-- A ◀ click: the slider is rendered with the post-button page, so its value
equals the freshly clamped decrement. -/
def prevEvent (total_pages current : Nat) : Nat :=
  page_step total_pages current true false (max 1 (current - 1))

/-- A ▶ click: the slider is rendered with the post-button page, so its value
equals the freshly clamped increment. -/
def nextEvent (total_pages current : Nat) : Nat :=
  page_step total_pages current false true (min total_pages (current + 1))

/-- A direct page selection: no button clicked, slider moved to `v` (the
slider widget itself enforces `1 ≤ v ≤ total_pages`). -/
def selectEvent (total_pages current v : Nat) : Nat :=
  page_step total_pages current false false v

/-- `n` repetitions of a page transition. -/
def iterN (f : Nat → Nat) : Nat → Nat → Nat
  | 0, x => x
  | n + 1, x => f (iterN f n x)

/-- A value read from an edited data-editor cell: `None`, a string, or an
integer (floats are outside the modelled fragment). -/
inductive Cell where
  | none : Cell
  | str : String → Cell
  | int : Int → Cell
deriving Repr, DecidableEq

/-- Python `str()` of a cell value. -/
def pyStrCell : Cell → String
  | Cell.none => "None"
  | Cell.str s => s
  | Cell.int n => toString n

/-- The ASCII whitespace Python's `str.strip` removes (unicode whitespace is
outside the modelled fragment). -/
def isPySpace (c : Char) : Bool :=
  c = ' ' || c = '\t' || c = '\n' || c = '\r' || c = Char.ofNat 11 || c = Char.ofNat 12

/-- Python `s.strip()`: drop leading and trailing whitespace. -/
def pyStrip (s : String) : String :=
  String.mk (((s.data.dropWhile isPySpace).reverse.dropWhile isPySpace).reverse)

/-- Python `int(s)` on a string: surrounding whitespace is stripped, then an
optional sign followed by at least one digit (underscore digit grouping is
outside the modelled fragment); anything else raises, i.e. yields no value. -/
def parsePyInt (s : String) : Option Int :=
  match (pyStrip s).data with
  | '-' :: ds =>
    if ds ≠ [] ∧ ds.all Char.isDigit then some (-(digitsToNat ds : Int)) else Option.none
  | '+' :: ds =>
    if ds ≠ [] ∧ ds.all Char.isDigit then some (digitsToNat ds : Int) else Option.none
  | ds =>
    if ds ≠ [] ∧ ds.all Char.isDigit then some (digitsToNat ds : Int) else Option.none

/-- Python `int(cell)`: integers pass through, strings are parsed, `None`
raises (no value). -/
def pyIntCell : Cell → Option Int
  | Cell.none => Option.none
  | Cell.int n => some n
  | Cell.str s => parsePyInt s

/-- The `so_val` computation of `replace_prompts` (lines 256-259): `0` when
`str(so).strip()` is empty, otherwise `int(so)` with any conversion failure
caught and defaulted to `0`. -/
def sortOrderVal (so : Cell) : Int :=
  if pyStrip (pyStrCell so) ≠ "" then (pyIntCell so).getD 0 else 0

/-- Python `f.split(":", 1)` for a string containing a colon: the text before
the first colon and the text after it. -/
def splitFirstColon : List Char → List Char × List Char
  | [] => ([], [])
  | c :: rest =>
    if c = ':' then ([], rest)
    else
      let p := splitFirstColon rest
      (c :: p.1, p.2)

/-- `prompt_raw in (None, "")` (line 261). -/
def cellIsBlank (c : Cell) : Bool :=
  c = Cell.none || c = Cell.str ""

/-- `isinstance(field_raw, str) and ":" in field_raw` followed by
`field_raw.split(":", 1)` (lines 261-264); the source's `len(parts) == 2`
check always holds once a colon is present. -/
def cellColonSplit (c : Cell) : Option (String × String) :=
  match c with
  | Cell.str f =>
    if ':' ∈ f.data then
      some (String.mk (splitFirstColon f.data).1, String.mk (splitFirstColon f.data).2)
    else Option.none
  | _ => Option.none

/-- One edited row as read by `replace_prompts`:
`row.get("field_name", "")`, `row.get("retrieval_prompt", "")`,
`row.get("sort_order")`. -/
structure PromptRow where
  field_name : Cell
  retrieval_prompt : Cell
  sort_order : Cell
deriving Repr, DecidableEq

/-- A prompt object emitted into the JSON array payload (line 269). -/
structure PromptDef where
  field_name : String
  retrieval_prompt : String
  sort_order : Int
deriving Repr, DecidableEq

/-- The shorthand-recovery step of the row loop (lines 260-264): when the
prompt cell is blank and the field cell is a colon-containing string, the
field/prompt pair is recovered by splitting the field on the first colon;
otherwise the cells are used as read. -/
def recoveredPair (row : PromptRow) : Cell × Cell :=
  if cellIsBlank row.retrieval_prompt then
    match cellColonSplit row.field_name with
    | some (f, p) => (Cell.str f, Cell.str p)
    | Option.none => (row.field_name, row.retrieval_prompt)
  else (row.field_name, row.retrieval_prompt)

/-- One iteration of the row loop in `replace_prompts` (lines 252-269):
compute `so_val`; apply the shorthand recovery; strip both parts; skip the
row when either stripped part is empty, else emit the prompt object. -/
def processRow (row : PromptRow) : Option PromptDef :=
  let fp := recoveredPair row
  let field := pyStrip (pyStrCell fp.1)
  let prompt := pyStrip (pyStrCell fp.2)
  if field = "" ∨ prompt = "" then Option.none
  else some ⟨field, prompt, sortOrderVal row.sort_order⟩

/-- One `CALL ...REPLACE_PROMPTS(doc_type, PARSE_JSON(payload))` statement;
the payload is recorded as the list of prompt objects the JSON array
serializes (the empty list is the `"[]"` payload). -/
structure ReplaceCall where
  doc_type : String
  payload : List PromptDef
deriving Repr, DecidableEq

/-- `replace_prompts` (lines 241-276): a `None` or empty table still issues
one call with the `"[]"` payload and returns `0`; otherwise the surviving
rows are submitted in one call and their count returned.  The first component
collects the CALL statements issued, the second is the return value. -/
def replace_prompts (doc_type : String) (prompts_df : Option (List PromptRow)) :
    List ReplaceCall × Nat :=
  match prompts_df with
  | Option.none => ([⟨doc_type, []⟩], 0)
  | some rows =>
    if rows.isEmpty then ([⟨doc_type, []⟩], 0)
    else
      let out := rows.filterMap processRow
      ([⟨doc_type, out⟩], out.length)

/-- ASCII lowercasing of one character, Python `str.lower` restricted to the
ASCII range (non-ASCII case folding is outside the modelled fragment). -/
def pyLower (c : Char) : Char :=
  if 'A' ≤ c ∧ c ≤ 'Z' then Char.ofNat (c.toNat + 32) else c

/-- Python `s.lower()` over the characters of a string. -/
def lowerStr (cs : List Char) : List Char := cs.map pyLower

/-- Python `s.split(".")`: the segments between dots; the result is never the
empty list. -/
def splitOnDot : List Char → List (List Char)
  | [] => [[]]
  | c :: rest =>
    if c = '.' then [] :: splitOnDot rest
    else
      match splitOnDot rest with
      | [] => [[c]]
      | p :: ps => (c :: p) :: ps

/-- `xs[-1]` on a split result (split results are never empty). -/
def lastSeg : List (List Char) → List Char
  | [] => []
  | [a] => a
  | _ :: b :: rest => lastSeg (b :: rest)

/-- The extension comparison chain of `get_file_type` (lines 23-27). -/
def extClassify (ext : List Char) : String :=
  if ext = "pdf".data then "pdf"
  else if ext ∈ ["png".data, "jpg".data, "jpeg".data, "gif".data, "bmp".data, "webp".data]
  then "image"
  else "unknown"

/-- `get_file_type` (lines 19-27): a falsy filename (`None` or empty) is
"unknown"; otherwise the final segment of the lowercased name split on dots
is the extension when a dot is present (the empty extension otherwise), and
the extension selects "pdf", "image" or "unknown". -/
def get_file_type (filename : Option String) : String :=
  match filename with
  | Option.none => "unknown"
  | some s =>
    if s = "" then "unknown"
    else
      let ext := if '.' ∈ s.data then lastSeg (splitOnDot (lowerStr s.data)) else []
      extClassify ext

/-! ## Theorems -/

/-- For C4: `fetch_stage_file` has no exception handler, so a failing staged
read propagates out of the call unchanged instead of being converted to a
message or safe default — the claim fails at this call site. -/
theorem claim_C4_counterexample :
    fetch_stage_file (Except.error "stage read failed") =
      Except.error "stage read failed" := rfl

/-- C4 (amended): `get_presigned_url` catches every failure of its remote
query and converts it to `None` (returning the URL on success), but
`fetch_stage_file` has no handler and passes both outcomes of the staged
read through unchanged, so its failures propagate to the caller. -/
theorem claim_C4_amended :
    (∀ e, get_presigned_url (Except.error e) = Option.none) ∧
    (∀ u, get_presigned_url (Except.ok u) = some u) ∧
    (∀ r, fetch_stage_file r = r) := by
  refine ⟨fun e => rfl, fun u => rfl, fun r => ?_⟩
  cases r <;> rfl

/-- For C5: the Upload & Process handler performs writes (file upload and
`PROCESS_ONE_FILE` calls) but contains no `_bump_cache()` call, so the
revision counter stays at its old value — the claim that every write bumps
it fails for this operation. -/
theorem claim_C5_counterexample :
    applyOp SessionOp.uploadProcessClick 0 = 0 ∧
    ¬ 0 < applyOp SessionOp.uploadProcessClick 0 := by decide

/-- C5 (amended): the revision counter never decreases under any interaction,
and the refresh, prompt-save and approve handlers each bump it by one, but
the upload/process handler leaves it unchanged, so reads after an upload
rely on the cache's fixed expiry rather than a larger revision key. -/
theorem claim_C5_amended :
    (∀ op b, b ≤ applyOp op b) ∧
    (∀ b, applyOp SessionOp.promptSaveClick b = b + 1) ∧
    (∀ b, applyOp SessionOp.approveClick b = b + 1) ∧
    (∀ b, applyOp SessionOp.refreshClick b = b + 1) ∧
    (∀ b, applyOp SessionOp.uploadProcessClick b = b) := by
  refine ⟨fun op b => ?_, fun b => rfl, fun b => rfl, fun b => rfl, fun b => rfl⟩
  cases op <;> simp [applyOp, bump_cache]

lemma doubleChar_cons (c x : Char) (l : List Char) :
    doubleChar c (x :: l) =
      (if x = c then [c, c] else [x]) ++ doubleChar c l := by
  by_cases h : x = c <;> simp [doubleChar, h]

lemma escape_json_for_sql_cons (c : Char) (l : List Char) :
    escape_json_for_sql (c :: l) =
      (if c = '\\' then ['\\', '\\'] else if c = sqc then [sqc, sqc] else [c]) ++
        escape_json_for_sql l := by
  have hbs : ('\\' : Char) ≠ sqc := by decide
  have hsb : sqc ≠ ('\\' : Char) := by decide
  by_cases hb : c = '\\'
  · rw [if_pos hb]; subst hb
    simp [escape_json_for_sql, doubleChar_cons, hbs]
  · by_cases hq : c = sqc
    · rw [if_neg hb, if_pos hq]; subst hq
      simp [escape_json_for_sql, doubleChar_cons, hsb]
    · rw [if_neg hb, if_neg hq]
      simp [escape_json_for_sql, doubleChar_cons, hb, hq]

lemma sqlUnescape_cons_ord (c : Char) (l : List Char) (h1 : c ≠ '\\') (h2 : c ≠ sqc) :
    sqlUnescape (c :: l) = c :: sqlUnescape l := by
  cases l with
  | nil => simp [sqlUnescape]
  | cons d t => simp [sqlUnescape, h1, h2]

lemma sqlUnescape_bs (l : List Char) :
    sqlUnescape ('\\' :: '\\' :: l) = '\\' :: sqlUnescape l := by
  simp [sqlUnescape]

lemma sqlUnescape_sq (l : List Char) :
    sqlUnescape (sqc :: sqc :: l) = sqc :: sqlUnescape l := by
  simp [sqlUnescape]

lemma escape_unescape_roundtrip :
    ∀ s : List Char, sqlUnescape (escape_json_for_sql s) = s := by
  intro s
  induction s with
  | nil => rfl
  | cons c l ih =>
    rw [escape_json_for_sql_cons]
    by_cases hb : c = '\\'
    · rw [if_pos hb]; subst hb
      simp only [List.cons_append, List.nil_append]
      rw [sqlUnescape_bs, ih]
    · by_cases hq : c = sqc
      · rw [if_neg hb, if_pos hq]; subst hq
        simp only [List.cons_append, List.nil_append]
        rw [sqlUnescape_sq, ih]
      · rw [if_neg hb, if_neg hq]
        simp only [List.cons_append, List.nil_append]
        rw [sqlUnescape_cons_ord c _ hb hq, ih]

/-- C3: `esc` doubles the single quote of "O'Brien", and for every string the
spec's unescaping of the literal built by `escape_json_for_sql` (doubled
backslashes back to a backslash, doubled quotes back to a quote) reproduces
the original string exactly, because backslashes are escaped before quotes. -/
theorem claim_C3_escaping :
    esc (JValue.str (String.mk ['O', sqc, 'B', 'r', 'i', 'e', 'n'])) =
      ['O', sqc, sqc, 'B', 'r', 'i', 'e', 'n'] ∧
    (∀ s : List Char, sqlUnescape (escape_json_for_sql s) = s) :=
  ⟨by decide, escape_unescape_roundtrip⟩

lemma nextEvent_eq (N c : Nat) : nextEvent N c = min N (c + 1) := by
  simp [nextEvent, page_step]

lemma prevEvent_eq (N c : Nat) : prevEvent N c = max 1 (c - 1) := by
  simp [prevEvent, page_step]

lemma selectEvent_eq (N c v : Nat) : selectEvent N c v = v := by
  by_cases h : v = c <;> simp [selectEvent, page_step, h]

lemma iter_nextEvent_from_one (N : Nat) :
    ∀ k, k + 1 ≤ N → iterN (nextEvent N) k 1 = k + 1 := by
  intro k
  induction k with
  | zero => intro _; rfl
  | succ k ih =>
    intro h
    rw [iterN, ih (by omega), nextEvent_eq]
    omega

/-- C6: for an `N`-page document (`N ≥ 2`) starting at page 1, `N - 1` next
clicks reach page `N`; a further next click stays at `N` (clamped, no wrap);
a previous click at page 1 stays at 1; and every previous/next/direct-select
transition of `render_document_preview` keeps the page within `1..N`. -/
theorem claim_C6_pagination (N : Nat) (hN : 2 ≤ N) :
    iterN (nextEvent N) (N - 1) 1 = N ∧
    nextEvent N N = N ∧
    prevEvent N 1 = 1 ∧
    (∀ c, 1 ≤ c → c ≤ N →
      1 ≤ nextEvent N c ∧ nextEvent N c ≤ N ∧
      1 ≤ prevEvent N c ∧ prevEvent N c ≤ N) ∧
    (∀ c v, 1 ≤ v → v ≤ N → 1 ≤ selectEvent N c v ∧ selectEvent N c v ≤ N) := by
  refine ⟨?_, ?_, ?_, ?_, ?_⟩
  · rw [iter_nextEvent_from_one N (N - 1) (by omega)]; omega
  · rw [nextEvent_eq]; omega
  · rw [prevEvent_eq]; omega
  · intro c h1 h2
    rw [nextEvent_eq, prevEvent_eq]
    omega
  · intro c v h1 h2
    rw [selectEvent_eq]
    exact ⟨h1, h2⟩

/-- Witness for C6 at a concrete three-page document. -/
theorem claim_C6_pagination_witness :
    iterN (nextEvent 3) (3 - 1) 1 = 3 ∧ nextEvent 3 3 = 3 ∧ prevEvent 3 1 = 1 :=
  ⟨(claim_C6_pagination 3 (by decide)).1,
   (claim_C6_pagination 3 (by decide)).2.1,
   (claim_C6_pagination 3 (by decide)).2.2.1⟩

/-- For C1: with key "response" bound to the non-mapping `"x"`, the code
takes that value as the payload (not the top-level mapping), and the
subsequent `payload.items()` raises, so normalization produces no mapping at
all — contradicting the claim that the top-level mapping would be used. -/
theorem claim_C1_counterexample :
    extract_response_fields (JValue.obj [("response", JValue.str "x")]) = Option.none ∧
    (extract_response_fields (JValue.obj [("response", JValue.str "x")])).isSome = false :=
  ⟨rfl, rfl⟩

/-- C1 (amended): `obj.get("response", obj)` uses the value under "response"
whenever the key is present, whatever its type; the top-level mapping is the
payload only when the key is absent; and a non-mapping payload makes the
normalizer fail (raise) rather than fall back to the top-level mapping. -/
theorem claim_C1_amended (pairs : List (String × JValue)) :
    (∀ v, lookupJ "response" pairs = some v →
      extract_response_fields (JValue.obj pairs) =
        (match v with
         | JValue.obj pp => some (pp.map (fun kv => (kv.1, normVal kv.2)))
         | _ => Option.none)) ∧
    (lookupJ "response" pairs = Option.none →
      extract_response_fields (JValue.obj pairs) =
        some (pairs.map (fun kv => (kv.1, normVal kv.2)))) := by
  constructor
  · intro v hv
    simp only [extract_response_fields, ensure_dict, hv, Option.getD_some]
  · intro hv
    simp only [extract_response_fields, ensure_dict, hv, Option.getD_none]

/-- Witness for C1 (amended) at a mapping-valued "response" key. -/
theorem claim_C1_amended_witness :
    extract_response_fields
        (JValue.obj [("response", JValue.obj [("a", JValue.str "b")])]) =
      some [("a", JValue.str "b")] := by
  rw [(claim_C1_amended [("response", JValue.obj [("a", JValue.str "b")])]).1
      (JValue.obj [("a", JValue.str "b")]) rfl]
  rfl

/-- For C2: the string `"3"` parses as structured data, and `ensure_dict`
returns the parsed value `3` unchanged — a non-mapping — contradicting the
claim that the normalizer always returns a flat mapping. -/
theorem claim_C2_counterexample :
    ensure_dict (JValue.str "3") = JValue.num 3 ∧
    (ensure_dict (JValue.str "3")).isObj = false :=
  ⟨rfl, rfl⟩

/-- C2 (amended): `None` yields the empty mapping, a string that fails to
parse yields the raw wrapper, a mapping is returned unchanged, and a
non-string non-mapping non-null value is wrapped under "value"; but a string
that parses is returned as the parsed value even when that value is not a
mapping, so the normalizer can return a non-mapping (it never raises). -/
theorem claim_C2_amended (v : JValue) :
    ensure_dict JValue.null = JValue.obj [] ∧
    (∀ s, jsonLoads s = Option.none →
      ensure_dict (JValue.str s) = JValue.obj [("raw", JValue.str s)]) ∧
    (∀ s u, jsonLoads s = some u → ensure_dict (JValue.str s) = u) ∧
    (v.isObj = true → ensure_dict v = v) ∧
    (v.isObj = false → v ≠ JValue.null → (∀ s, v ≠ JValue.str s) →
      ensure_dict v = JValue.obj [("value", v)]) := by
  refine ⟨rfl, ?_, ?_, ?_, ?_⟩
  · intro s h; simp [ensure_dict, h]
  · intro s u h; simp [ensure_dict, h]
  · intro h; cases v <;> simp_all [JValue.isObj, ensure_dict]
  · intro h hn hs
    cases v with
    | null => exact absurd rfl hn
    | str s => exact absurd rfl (hs s)
    | obj l => simp [JValue.isObj] at h
    | bool b => rfl
    | num n => rfl
    | arr l => rfl

/-- Witness for C2 (amended) at a string that fails to parse. -/
theorem claim_C2_amended_witness :
    ensure_dict (JValue.str "not json") = JValue.obj [("raw", JValue.str "not json")] :=
  (claim_C2_amended JValue.null).2.1 "not json" rfl

/-- C9: the spec's concrete vector normalizes as stated; a list value becomes
the `", "`-join of its elements' string forms, any other value is kept
unchanged; and for any mapping payload under "response" the output maps each
pair through that normalisation. -/
theorem claim_C9_list_join (ppairs pairs : List (String × JValue)) :
    extract_response_fields
        (JValue.obj [("response", JValue.obj
          [("a", JValue.arr [JValue.num 1, JValue.num 2]), ("b", JValue.str "x")])]) =
      some [("a", JValue.str "1, 2"), ("b", JValue.str "x")] ∧
    (∀ l, normVal (JValue.arr l) = JValue.str (String.intercalate ", " (l.map pyStr))) ∧
    (∀ w, w.isArr = false → normVal w = w) ∧
    (lookupJ "response" pairs = some (JValue.obj ppairs) →
      extract_response_fields (JValue.obj pairs) =
        some (ppairs.map (fun kv => (kv.1, normVal kv.2)))) := by
  refine ⟨rfl, fun l => rfl, ?_, ?_⟩
  · intro w h; cases w <;> simp_all [JValue.isArr, normVal]
  · intro h
    simp only [extract_response_fields, ensure_dict, h, Option.getD_some]

/-- Witness for C9 at an empty-list field value. -/
theorem claim_C9_list_join_witness :
    extract_response_fields (JValue.obj [("response", JValue.obj [("k", JValue.arr [])])]) =
      some [("k", JValue.str "")] := by
  rw [(claim_C9_list_join [("k", JValue.arr [])]
      [("response", JValue.obj [("k", JValue.arr [])])]).2.2.2 rfl]
  rfl

lemma splitFirstColon_no_colon : ∀ l : List Char, ':' ∉ (splitFirstColon l).1 := by
  intro l
  induction l with
  | nil => simp [splitFirstColon]
  | cons c rest ih =>
    by_cases h : c = ':'
    · simp [splitFirstColon, h]
    · simp only [splitFirstColon, if_neg h, List.mem_cons, not_or]
      exact ⟨fun e => h e.symm, ih⟩

/-- C7: a blank-prompt row whose field contains a colon is recovered by
splitting the field on the first colon; without recovery the field and
prompt string forms are used directly; in each case both parts are trimmed,
`sort_order` is parsed with a 0 default on blank or failure, and the row is
dropped exactly when a trimmed part is empty; emitted rows always carry
non-empty parts and the parsed sort value; plus the spec's concrete rows. -/
theorem claim_C7_row_processing :
    (∀ f pr so, cellIsBlank pr = true → ':' ∈ f.data →
      processRow ⟨Cell.str f, pr, so⟩ =
        (if pyStrip (String.mk (splitFirstColon f.data).1) = "" ∨
            pyStrip (String.mk (splitFirstColon f.data).2) = ""
         then Option.none
         else some ⟨pyStrip (String.mk (splitFirstColon f.data).1),
                    pyStrip (String.mk (splitFirstColon f.data).2), sortOrderVal so⟩)) ∧
    (∀ fc pr so, cellIsBlank pr = false →
      processRow ⟨fc, pr, so⟩ =
        (if pyStrip (pyStrCell fc) = "" ∨ pyStrip (pyStrCell pr) = "" then Option.none
         else some ⟨pyStrip (pyStrCell fc), pyStrip (pyStrCell pr), sortOrderVal so⟩)) ∧
    (∀ fc pr so, cellIsBlank pr = true → cellColonSplit fc = Option.none →
      processRow ⟨fc, pr, so⟩ =
        (if pyStrip (pyStrCell fc) = "" ∨ pyStrip (pyStrCell pr) = "" then Option.none
         else some ⟨pyStrip (pyStrCell fc), pyStrip (pyStrCell pr), sortOrderVal so⟩)) ∧
    (∀ row r, processRow row = some r →
      r.field_name ≠ "" ∧ r.retrieval_prompt ≠ "" ∧
      r.sort_order = sortOrderVal row.sort_order) ∧
    (∀ so, pyStrip (pyStrCell so) = "" → sortOrderVal so = 0) ∧
    (∀ s, parsePyInt s = Option.none → sortOrderVal (Cell.str s) = 0) ∧
    processRow ⟨Cell.str "Name: Full legal name", Cell.str "", Cell.none⟩ =
      some ⟨"Name", "Full legal name", 0⟩ ∧
    processRow ⟨Cell.str "", Cell.str "", Cell.none⟩ = Option.none ∧
    processRow ⟨Cell.str "f1", Cell.str "p1", Cell.str "abc"⟩ = some ⟨"f1", "p1", 0⟩ ∧
    sortOrderVal (Cell.str " 7 ") = 7 := by
  refine ⟨?_, ?_, ?_, ?_, ?_, ?_, by decide, by decide, by decide, by decide⟩
  · intro f pr so hb hc
    simp [processRow, recoveredPair, cellColonSplit, hb, hc, pyStrCell]
  · intro fc pr so hb
    simp [processRow, recoveredPair, hb]
  · intro fc pr so hb hsplit
    simp [processRow, recoveredPair, hb, hsplit]
  · intro row r h
    simp only [processRow] at h
    split at h
    · exact absurd h (by simp)
    · rename_i hcond
      push_neg at hcond
      rw [Option.some_inj] at h
      subst h
      exact ⟨hcond.1, hcond.2, rfl⟩
  · intro so h
    simp [sortOrderVal, h]
  · intro s h
    simp only [sortOrderVal, pyIntCell, h]
    split <;> rfl

/-- Witness for C7 at a concrete trimmed row with integer sort order. -/
theorem claim_C7_row_processing_witness :
    processRow ⟨Cell.str "  a  ", Cell.str " b ", Cell.int 2⟩ =
      some ⟨"a", "b", 2⟩ := by
  rw [claim_C7_row_processing.2.1 (Cell.str "  a  ") (Cell.str " b ") (Cell.int 2)
      (by decide)]
  decide

/-- C10: `replace_prompts` always issues exactly one replace call; a `None`
or empty table still submits the empty JSON array and returns 0; the return
value is always the number of prompt objects in the submitted payload; and a
non-empty table submits exactly the rows surviving filtering. -/
theorem claim_C10_replace (doc_type : String) (df : Option (List PromptRow)) :
    (replace_prompts doc_type df).1.length = 1 ∧
    ((df = Option.none ∨ df = some []) →
      replace_prompts doc_type df = ([⟨doc_type, []⟩], 0)) ∧
    ((replace_prompts doc_type df).2 =
      ((replace_prompts doc_type df).1.headD ⟨doc_type, []⟩).payload.length) ∧
    (∀ rows, df = some rows → rows ≠ [] →
      replace_prompts doc_type df =
        ([⟨doc_type, rows.filterMap processRow⟩],
         (rows.filterMap processRow).length)) := by
  refine ⟨?_, ?_, ?_, ?_⟩
  · cases df with
    | none => rfl
    | some rows => cases rows with
      | nil => rfl
      | cons a t => rfl
  · intro h
    rcases h with h | h <;> subst h <;> rfl
  · cases df with
    | none => rfl
    | some rows => cases rows with
      | nil => rfl
      | cons a t => rfl
  · intro rows h hne
    subst h
    cases rows with
    | nil => exact absurd rfl hne
    | cons a t => rfl

/-- Witness for C10 at the `None` table. -/
theorem claim_C10_replace_witness :
    replace_prompts "Invoice" Option.none = ([⟨"Invoice", []⟩], 0) :=
  (claim_C10_replace "Invoice" Option.none).2.1 (Or.inl rfl)

lemma splitOnDot_ne_nil : ∀ l : List Char, splitOnDot l ≠ [] := by
  intro l
  cases l with
  | nil => simp [splitOnDot]
  | cons c rest =>
    simp only [splitOnDot]
    split
    · simp
    · split <;> simp

lemma two_le_splitOnDot_length :
    ∀ l : List Char, '.' ∈ l → 2 ≤ (splitOnDot l).length := by
  intro l h
  induction l with
  | nil => cases h
  | cons c rest ih =>
    by_cases hc : c = '.'
    · have h1 : 1 ≤ (splitOnDot rest).length :=
        List.length_pos.mpr (splitOnDot_ne_nil rest)
      simp only [splitOnDot, if_pos hc, List.length_cons]
      omega
    · have hr : '.' ∈ rest := by
        rcases List.mem_cons.mp h with h' | h'
        · exact absurd h'.symm hc
        · exact h'
      have h2 := ih hr
      simp only [splitOnDot, if_neg hc]
      cases hsp : splitOnDot rest with
      | nil => exact absurd hsp (splitOnDot_ne_nil rest)
      | cons p ps =>
        rw [hsp] at h2
        simpa using h2

lemma lastSeg_splitOnDot_append (a b : List Char) :
    lastSeg (splitOnDot (a ++ '.' :: b)) = lastSeg (splitOnDot b) := by
  induction a with
  | nil =>
    simp only [List.nil_append, splitOnDot, if_pos rfl]
    cases hsp : splitOnDot b with
    | nil => exact absurd hsp (splitOnDot_ne_nil b)
    | cons p ps => rfl
  | cons c rest ih =>
    simp only [List.cons_append, splitOnDot]
    by_cases hc : c = '.'
    · rw [if_pos hc]
      cases hsp : splitOnDot (rest ++ '.' :: b) with
      | nil => exact absurd hsp (splitOnDot_ne_nil _)
      | cons p ps =>
        rw [hsp] at ih
        exact ih
    · rw [if_neg hc]
      have h2 := two_le_splitOnDot_length (rest ++ '.' :: b) (by simp)
      cases hsp : splitOnDot (rest ++ '.' :: b) with
      | nil => exact absurd hsp (splitOnDot_ne_nil _)
      | cons p ps =>
        cases ps with
        | nil => rw [hsp] at h2; simp at h2
        | cons q qs =>
          rw [hsp] at ih
          exact ih

lemma splitOnDot_no_dot (l : List Char) (h : '.' ∉ l) : splitOnDot l = [l] := by
  induction l with
  | nil => rfl
  | cons c rest ih =>
    have hc : c ≠ '.' := fun e => h (by simp [e])
    have hr : '.' ∉ rest := fun m => h (List.mem_cons_of_mem _ m)
    simp [splitOnDot, hc, ih hr]

lemma lowerStr_append_dot (a b : List Char) :
    lowerStr (a ++ '.' :: b) = lowerStr a ++ '.' :: lowerStr b := by
  simp [lowerStr]
  rfl

/-- C8: classification is a total function of the filename alone: `None` or
empty names are "unknown", names without a dot are "unknown", and for any
name of the form `a ++ "." ++ w` whose (lowercased) final segment `w` holds
no further dot, the category is decided by that final extension only — pdf
for "pdf", image for the image set, else unknown — with the spec's concrete
vectors `"a.PDF"`, `"a.tar.gz"`, `"noext"` as instances. -/
theorem claim_C8_file_type :
    get_file_type Option.none = "unknown" ∧
    get_file_type (some "") = "unknown" ∧
    get_file_type (some "a.PDF") = "pdf" ∧
    get_file_type (some "a.tar.gz") = "unknown" ∧
    get_file_type (some "noext") = "unknown" ∧
    (∀ a w : List Char, '.' ∉ lowerStr w →
      get_file_type (some (String.mk (a ++ '.' :: w))) = extClassify (lowerStr w)) ∧
    (∀ s : String, s ≠ "" → '.' ∉ s.data → get_file_type (some s) = "unknown") := by
  refine ⟨rfl, rfl, by decide, by decide, by decide, ?_, ?_⟩
  · intro a w hw
    have hne : String.mk (a ++ '.' :: w) ≠ "" := by
      intro h
      have : (a ++ '.' :: w) = [] := congrArg String.data h
      simp at this
    have hmem : '.' ∈ (String.mk (a ++ '.' :: w)).data := by simp
    simp only [get_file_type, if_neg hne, if_pos hmem]
    rw [lowerStr_append_dot, lastSeg_splitOnDot_append, splitOnDot_no_dot _ hw]
    rfl
  · intro s hs hd
    simp only [get_file_type, if_neg hs, if_neg hd]
    rfl

/-- Witness for C8 on a mixed-case pdf name with a dotted prefix. -/
theorem claim_C8_file_type_witness :
    get_file_type (some (String.mk ("v1.report".data ++ '.' :: "PdF".data))) =
      extClassify (lowerStr "PdF".data) :=
  claim_C8_file_type.2.2.2.2.2.1 "v1.report".data "PdF".data (by decide)
